import Mathlib

/-
Verification of the cooperative task scheduler in src/new_worm/scheduler.c.

The observable data of the scheduler is the global task table: the array
tasks[MAX_TASKS] of task_info records, the handle current_task of the
running task of the table and the count num_tasks.  The two ucontext_t fields
of a record are raw machine execution state and are not data; what is
modelled about them is the one decision the code makes with them, namely
whether schedule reaches its swapcontext call (a Bool in the embedding).

External calls are modelled by an oracle Env: the k-th call to time_ms
returns Env.timeSeq k and the k-th call to getch returns Env.inputSeq k;
a Cursors value counts the calls made so far.  The unbounded scan loop
of schedule is given fuel; a result of none means the loop was still
spinning after that many iterations.
-/

set_option maxRecDepth 8000

namespace Worm

/-- Status code of the currently executing task (source: is_running = 1). -/
def is_running : Nat := 1

/-- Status code of a task blocked waiting for input (source: blocked_on_input = 2). -/
def blocked_on_input : Nat := 2

/-- Status code of a sleeping task (source: blocked_on_sleep = 3). -/
def blocked_on_sleep : Nat := 3

/-- Status code of a task waiting for another task (source: blocked_on_join = 4). -/
def blocked_on_join : Nat := 4

/-- Status code of a terminated task (source: exited = 5). -/
def exited : Nat := 5

/-- Status code of a runnable task waiting for its turn (source: ready = 6). -/
def ready : Nat := 6

/-- Upper limit on the number of tasks (source: MAX_TASKS = 128). -/
def MAX_TASKS : Nat := 128

/-- Value returned by getch when no input is available (curses ERR). -/
def ERR : Int := -1

/-- One slot of the task table (struct task_info).  A fresh slot of the
zero-initialised global array has all fields 0. -/
structure task_info where
  status : Nat := 0
  wake_time : Nat := 0
  join_thread : Nat := 0
  input : Int := 0
deriving DecidableEq, Inhabited

/-- The scheduler globals: current_task, num_tasks and the task table.
The table is a total function from slot index to record; indices at
MAX_TASKS and beyond stand for memory past the end of tasks[MAX_TASKS]. -/
structure SchedState where
  current_task : Nat
  num_tasks : Nat
  tasks : Nat → task_info
deriving Inhabited

/-- Oracle for the two external read-only services: the monotone clock
(time_ms) and the non-blocking input probe (getch). -/
structure Env where
  timeSeq : Nat → Nat
  inputSeq : Nat → Int

/-- Counts of external calls made so far: tc calls to time_ms, gc calls
to getch. -/
structure Cursors where
  tc : Nat
  gc : Nat
deriving DecidableEq, Inhabited

/-- Selection of slot i by the scan loop: tasks[i].status = is_running
and current_task = i, exactly the two assignments in the loop body. -/
def select (st : SchedState) (i : Nat) : SchedState :=
  { st with
    current_task := i,
    tasks := fun j => if j = i then { st.tasks i with status := is_running } else st.tasks j }

/-- Selection of slot i by the blocked_on_input branch, which also
stores the consumed input value: tasks[i].input = res. -/
def selectInput (st : SchedState) (i : Nat) (v : Int) : SchedState :=
  { st with
    current_task := i,
    tasks := fun j =>
      if j = i then { st.tasks i with status := is_running, input := v } else st.tasks j }

/-- Update of the record of the currently running task, the shape of
every write tasks[current_task].f = v in the blocking primitives. -/
def setCurrent (st : SchedState) (f : task_info → task_info) : SchedState :=
  { st with tasks := fun j => if j = st.current_task then f (st.tasks j) else st.tasks j }

/-- The while(true) scan of schedule, translated branch for branch:
ready is selected; blocked_on_sleep is selected when time_ms() has
reached the wake time; blocked_on_join is selected when the yielder t
equals the recorded join target; blocked_on_input is selected when
getch() returns something other than ERR, which is then stored; any
other status is skipped.  On selection the loop performs the two
assignments tasks[index].status = is_running and current_task = index
and breaks, returning the selected index, the updated globals and the
advanced oracle cursors. -/
def scheduleLoop (env : Env) (t : Nat) (st : SchedState) :
    Nat → Nat → Cursors → Option (Nat × SchedState × Cursors)
  | 0, _, _ => none
  | fuel + 1, index, cur =>
    if (st.tasks index).status = ready then
      some (index, select st index, cur)
    else if (st.tasks index).status = blocked_on_sleep then
      if (st.tasks index).wake_time ≤ env.timeSeq cur.tc then
        some (index, select st index, { cur with tc := cur.tc + 1 })
      else
        scheduleLoop env t st fuel ((index + 1) % st.num_tasks) { cur with tc := cur.tc + 1 }
    else if (st.tasks index).status = blocked_on_join then
      if t = (st.tasks index).join_thread then
        some (index, select st index, cur)
      else
        scheduleLoop env t st fuel ((index + 1) % st.num_tasks) cur
    else if (st.tasks index).status = blocked_on_input then
      if env.inputSeq cur.gc ≠ ERR then
        some (index, selectInput st index (env.inputSeq cur.gc), { cur with gc := cur.gc + 1 })
      else
        scheduleLoop env t st fuel ((index + 1) % st.num_tasks) { cur with gc := cur.gc + 1 }
    else
      scheduleLoop env t st fuel ((index + 1) % st.num_tasks) cur

/-- void schedule(task_t t).  The scan starts at (t + 1) % num_tasks.
After the loop the source tests index == current_task and returns
without switching when they are equal, otherwise calls swapcontext;
since the loop has just assigned current_task = index, the returned
Bool (whether swapcontext runs) reproduces that comparison against the
already-updated global. -/
def schedule (env : Env) (fuel : Nat) (t : Nat) (st : SchedState) (cur : Cursors) :
    Option (SchedState × Cursors × Bool) :=
  match scheduleLoop env t st fuel ((t + 1) % st.num_tasks) cur with
  | none => none
  | some (index, st2, cur2) => some (st2, cur2, decide (¬ index = st2.current_task))

/-- void scheduler_init(): tasks[0].status = is_running. -/
def scheduler_init (st : SchedState) : SchedState :=
  { st with tasks := fun j => if j = 0 then { st.tasks 0 with status := is_running } else st.tasks j }

/-- The globals at program start: current_task = 0, num_tasks = 1 and a
zero-initialised table. -/
def initState : SchedState :=
  { current_task := 0, num_tasks := 1, tasks := fun _ => {} }

/-- The scheduler state right after scheduler_init(). -/
def startState : SchedState := scheduler_init initState

/-- The record update performed by task_exit before it reschedules:
tasks[current_task].status = exited. -/
def task_exit_rec (st : SchedState) : SchedState :=
  setCurrent st (fun x => { x with status := exited })

/-- void task_exit(): mark the current task exited, then schedule(current_task). -/
def task_exit (env : Env) (fuel : Nat) (st : SchedState) (cur : Cursors) :
    Option (SchedState × Cursors × Bool) :=
  schedule env fuel st.current_task (task_exit_rec st) cur

/-- void task_create(task_t* handle, task_fn_t fn): claim index = num_tasks
(no capacity check in the source), increment num_tasks, set the slot
ready and hand out the index as the handle.  The context and stack
wiring of the source has no table-visible effect. -/
def task_create (st : SchedState) : SchedState × Nat :=
  ({ st with
     num_tasks := st.num_tasks + 1,
     tasks := fun j =>
       if j = st.num_tasks then { st.tasks st.num_tasks with status := ready } else st.tasks j },
   st.num_tasks)

/-- The record update performed by task_wait before it reschedules:
status = blocked_on_join and join_thread = handle, with no validation
of the handle. -/
def task_wait_rec (handle : Nat) (st : SchedState) : SchedState :=
  setCurrent st (fun x => { x with status := blocked_on_join, join_thread := handle })

/-- void task_wait(task_t handle): block the current task on the handle,
then schedule(current_task). -/
def task_wait (env : Env) (fuel : Nat) (handle : Nat) (st : SchedState) (cur : Cursors) :
    Option (SchedState × Cursors × Bool) :=
  schedule env fuel st.current_task (task_wait_rec handle st) cur

/-- The record update performed by task_sleep before it reschedules:
status = blocked_on_sleep and wake_time = time_ms() + ms. -/
def task_sleep_rec (now ms : Nat) (st : SchedState) : SchedState :=
  setCurrent st (fun x => { x with status := blocked_on_sleep, wake_time := now + ms })

/-- void task_sleep(size_t ms): read the clock, record the wake time,
block the current task, then schedule(current_task). -/
def task_sleep (env : Env) (fuel : Nat) (ms : Nat) (st : SchedState) (cur : Cursors) :
    Option (SchedState × Cursors × Bool) :=
  schedule env fuel st.current_task (task_sleep_rec (env.timeSeq cur.tc) ms st)
    { cur with tc := cur.tc + 1 }

/-- The record update performed by task_readchar before it reschedules:
status = blocked_on_input. -/
def task_readchar_rec (st : SchedState) : SchedState :=
  setCurrent st (fun x => { x with status := blocked_on_input })

/-- int task_readchar(): block the current task on input and call
schedule(current_task); when schedule returns (to its caller), the
source returns tasks[current_task].input read from the table as it then
stands. -/
def task_readchar (env : Env) (fuel : Nat) (st : SchedState) (cur : Cursors) :
    Option (SchedState × Cursors × Bool × Int) :=
  match schedule env fuel st.current_task (task_readchar_rec st) cur with
  | none => none
  | some (st2, cur2, b) => some (st2, cur2, b, (st2.tasks st2.current_task).input)

/-- A public operation of the scheduler interface, as invoked by the
task the table records as current. -/
inductive Op where
  | create : Op
  | sleep : Nat → Op
  | wait : Nat → Op
  | readchar : Op
  | exitTask : Op
deriving DecidableEq

/-- The table-visible effect of one public operation (return values of
task_create and task_readchar are dropped here; the fuel bounds each
internal scan). -/
def runOp (env : Env) (fuel : Nat) (op : Op) (st : SchedState) (cur : Cursors) :
    Option (SchedState × Cursors) :=
  match op with
  | .create => some ((task_create st).1, cur)
  | .sleep ms => (task_sleep env fuel ms st cur).map (fun r => (r.1, r.2.1))
  | .wait h => (task_wait env fuel h st cur).map (fun r => (r.1, r.2.1))
  | .readchar => (task_readchar env fuel st cur).map (fun r => (r.1, r.2.1))
  | .exitTask => (task_exit env fuel st cur).map (fun r => (r.1, r.2.1))

/-- A completed sequence of public operations. -/
def runOps (env : Env) (fuel : Nat) : List Op → SchedState → Cursors → Option (SchedState × Cursors)
  | [], st, cur => some (st, cur)
  | op :: ops, st, cur =>
    match runOp env fuel op st cur with
    | none => none
    | some (st2, cur2) => runOps env fuel ops st2 cur2

/-- Modelled from the spec (section 4.2): eligibility of a task slot for
selection under a static environment, i.e. a fixed current time and a
fixed answer of the input probe.  Ready is eligible; a sleeper is
eligible when the time has reached its wake deadline; a joiner is
eligible when the yielding caller t equals its recorded join target; an
input-blocked task is eligible when input is available right now. -/
def specEligible (t now : Nat) (avail : Bool) (ti : task_info) : Bool :=
  if ti.status = ready then true
  else if ti.status = blocked_on_sleep then decide (ti.wake_time ≤ now)
  else if ti.status = blocked_on_join then decide (t = ti.join_thread)
  else if ti.status = blocked_on_input then avail
  else false

/-- Modelled from the spec (sections 4.2 and the tie-break policy):
deterministic forward ring scan that returns the first eligible slot,
advancing by one modulo the current task count; no priority weighting. -/
def specScan (t now : Nat) (avail : Bool) (st : SchedState) : Nat → Nat → Option Nat
  | 0, _ => none
  | fuel + 1, index =>
    if specEligible t now avail (st.tasks index) then some index
    else specScan t now avail st fuel ((index + 1) % st.num_tasks)

/-- Exactly one task of the table has status is_running, namely the one
current_task points at. -/
def uniqueRunning (st : SchedState) : Prop :=
  (st.tasks st.current_task).status = is_running ∧
  ∀ j, j ≠ st.current_task → (st.tasks j).status ≠ is_running

/-- The scheduler invariant: exactly one running task, and the current
handle addresses an existing slot. -/
def Inv (st : SchedState) : Prop :=
  uniqueRunning st ∧ st.current_task < st.num_tasks

/-- Slot i is eligible for selection by a scan on behalf of yielder t no
matter when its condition is probed. -/
def alwaysEligible (env : Env) (t : Nat) (st : SchedState) (i : Nat) : Prop :=
  (st.tasks i).status = ready
  ∨ ((st.tasks i).status = blocked_on_sleep ∧ ∀ k, (st.tasks i).wake_time ≤ env.timeSeq k)
  ∨ ((st.tasks i).status = blocked_on_join ∧ t = (st.tasks i).join_thread)
  ∨ ((st.tasks i).status = blocked_on_input ∧ ∀ k, env.inputSeq k ≠ ERR)

/-- Slot j is never eligible for selection by a scan on behalf of
yielder t, no matter when its condition is probed. -/
def notEligibleAny (env : Env) (t : Nat) (st : SchedState) (j : Nat) : Prop :=
  (st.tasks j).status ≠ ready
  ∧ ((st.tasks j).status = blocked_on_sleep → ∀ k, env.timeSeq k < (st.tasks j).wake_time)
  ∧ ((st.tasks j).status = blocked_on_join → t ≠ (st.tasks j).join_thread)
  ∧ ((st.tasks j).status = blocked_on_input → ∀ k, env.inputSeq k = ERR)

/-- Forward distance from a to b on the ring of n slots. -/
def ringDist (n a b : Nat) : Nat := (b + n - a) % n

/-- Cooperative execution continuing for a bounded number of yields:
each round the task the table records as current calls schedule (as
every blocking primitive and the exit path do), the first eligible slot
is selected, and then the selected task runs arbitrary code (acts)
before the next yield.  The proposition holds when slot i is selected
within the given number of rounds. -/
def eventuallySelects (env : Env) (acts : Nat → SchedState → SchedState) (i : Nat) :
    Nat → SchedState → Cursors → Prop
  | 0, _, _ => False
  | n + 1, st, cur =>
    match scheduleLoop env st.current_task st st.num_tasks
        ((st.current_task + 1) % st.num_tasks) cur with
    | none => False
    | some (sel, st2, cur2) => sel = i ∨ eventuallySelects env acts i n (acts n st2) cur2

/-- Environment with a stopped clock at 0 and no input ever available. -/
def envA : Env := ⟨fun _ => 0, fun _ => ERR⟩

/-- Environment with a stopped clock at 0 and the key code 120 always
available on the input. -/
def envB : Env := ⟨fun _ => 0, fun _ => 120⟩

/-- Environment with the clock stopped at 10 and no input. -/
def envW8 : Env := ⟨fun _ => 10, fun _ => ERR⟩

/-- Two-task table: main task 0 running, task 1 just created (ready). -/
def twoTasks : SchedState := (task_create startState).1

/-- Main task of the two-task table calls task_sleep(100). -/
def runC1 : Option (SchedState × Cursors × Bool) := task_sleep envA 4 100 twoTasks ⟨0, 0⟩

/-- Main creates task 1, joins it, then (the table current being task 1)
task 1 sleeps 100 ms. -/
def runC4 : Option (SchedState × Cursors) :=
  runOps envA 4 [Op.create, Op.wait 1, Op.sleep 100] startState ⟨0, 0⟩

/-- The table after the join-then-sleep trace. -/
def stC4 : SchedState := (runC4.getD default).1

/-- 127 task_create calls, filling the table to MAX_TASKS tasks. -/
def ops127 : List Op := List.replicate 127 Op.create

/-- The run that fills the table to capacity. -/
def runC3 : Option (SchedState × Cursors) := runOps envA 1 ops127 startState ⟨0, 0⟩

/-- The table filled to exactly MAX_TASKS tasks. -/
def stC3 : SchedState := (runC3.getD default).1

/-- Main task 0 of the two-task table calls task_readchar while task 1
is ready and the key 120 is pending. -/
def rC7b : Option (SchedState × Cursors × Bool × Int) := task_readchar envB 4 twoTasks ⟨0, 0⟩

/-- The completed first readchar call: state, cursors, switch flag and
returned value. -/
def rC7bv : SchedState × Cursors × Bool × Int := rC7b.getD default

/-- The second task_readchar call, made with the table saying task 1 is
current. -/
def rC7c : Option (SchedState × Cursors × Bool × Int) := task_readchar envB 4 rC7bv.1 rC7bv.2.1

/-- The completed second readchar call. -/
def rC7cv : SchedState × Cursors × Bool × Int := rC7c.getD default

/-- Witness trace for the running-task invariant: one create, one sleep. -/
def wops2 : List Op := [Op.create, Op.sleep 0]

/-- The completed witness trace. -/
def wrun2 : Option (SchedState × Cursors) := runOps envA 4 wops2 startState ⟨0, 0⟩

/-- Table after the witness trace. -/
def wst2 : SchedState := (wrun2.getD default).1

/-- Cursors after the witness trace. -/
def wcur2 : Cursors := (wrun2.getD default).2

/-- Slot 0 join-blocked on handle 1, slot 1 ready. -/
def stW4 : SchedState :=
  { current_task := 1, num_tasks := 2,
    tasks := fun j =>
      if j = 0 then { status := blocked_on_join, join_thread := 1 }
      else if j = 1 then { status := ready } else {} }

/-- Slot 0 join-blocked on the never-issued handle 5, slot 1 ready. -/
def stW5 : SchedState :=
  { current_task := 1, num_tasks := 2,
    tasks := fun j =>
      if j = 0 then { status := blocked_on_join, join_thread := 5 }
      else if j = 1 then { status := ready } else {} }

/-- Slot 0 running, slot 1 sleeping with wake deadline 10. -/
def stW8 : SchedState :=
  { current_task := 0, num_tasks := 2,
    tasks := fun j =>
      if j = 1 then { status := blocked_on_sleep, wake_time := 10 }
      else if j = 0 then { status := is_running } else {} }

/-- Slot 0 running, slot 1 join-blocked on slot 2, slot 2 exited. -/
def stW10 : SchedState :=
  { current_task := 0, num_tasks := 3,
    tasks := fun j =>
      if j = 0 then { status := is_running }
      else if j = 1 then { status := blocked_on_join, join_thread := 2 }
      else if j = 2 then { status := exited } else {} }

/-- The completed continuation: the running task 0 sleeps for 0 ms. -/
def wrun10 : Option (SchedState × Cursors) := runOps envA 8 [Op.sleep 0] stW10 ⟨0, 0⟩

/-- Table after the continuation. -/
def wst10 : SchedState := (wrun10.getD default).1

/-- Cursors after the continuation. -/
def wcur10 : Cursors := (wrun10.getD default).2

/-- What a completed scan guarantees: the selected slot is an existing
slot, the loop has set current_task to it and its status to is_running,
no other slot was touched, and the selected slot was eligible through
one of the four branches, with the corresponding oracle evidence. -/
lemma scheduleLoop_spec (env : Env) (t : Nat) (st : SchedState) :
    ∀ fuel idx cur sel st2 cur2, idx < st.num_tasks →
      scheduleLoop env t st fuel idx cur = some (sel, st2, cur2) →
      sel < st.num_tasks ∧ st2.current_task = sel ∧ st2.num_tasks = st.num_tasks ∧
      (st2.tasks sel).status = is_running ∧
      (∀ j, j ≠ sel → st2.tasks j = st.tasks j) ∧
      ((st.tasks sel).status = ready
        ∨ ((st.tasks sel).status = blocked_on_sleep ∧
            ∃ k, cur.tc ≤ k ∧ (st.tasks sel).wake_time ≤ env.timeSeq k)
        ∨ ((st.tasks sel).status = blocked_on_join ∧ t = (st.tasks sel).join_thread)
        ∨ ((st.tasks sel).status = blocked_on_input ∧
            ∃ k, cur.gc ≤ k ∧ env.inputSeq k ≠ ERR ∧ (st2.tasks sel).input = env.inputSeq k)) := by
  intro fuel
  induction fuel with
  | zero =>
    intro idx cur sel st2 cur2 hidx h
    simp [scheduleLoop] at h
  | succ fuel ih =>
    intro idx cur sel st2 cur2 hidx h
    have hpos : 0 < st.num_tasks := by omega
    simp only [scheduleLoop] at h
    split_ifs at h with h1 h2 h3 h4 h5 h6
    · simp only [Option.some.injEq, Prod.mk.injEq] at h
      obtain ⟨rfl, rfl, rfl⟩ := h
      refine ⟨hidx, rfl, rfl, ?_, ?_, Or.inl h1⟩
      · simp [select]
      · intro j hj; simp [select, hj]
    · simp only [Option.some.injEq, Prod.mk.injEq] at h
      obtain ⟨rfl, rfl, rfl⟩ := h
      refine ⟨hidx, rfl, rfl, ?_, ?_, Or.inr (Or.inl ⟨h2, cur.tc, Nat.le_refl _, h3⟩)⟩
      · simp [select]
      · intro j hj; simp [select, hj]
    · obtain ⟨ha, hb, hc, hd, he, hf⟩ := ih _ _ _ _ _ (Nat.mod_lt _ hpos) h
      refine ⟨ha, hb, hc, hd, he, ?_⟩
      rcases hf with hf | ⟨hs, k, hk1, hk2⟩ | hf | ⟨hs, k, hk1, hk2, hk3⟩
      · exact Or.inl hf
      · exact Or.inr (Or.inl ⟨hs, k, by simp at hk1; omega, hk2⟩)
      · exact Or.inr (Or.inr (Or.inl hf))
      · exact Or.inr (Or.inr (Or.inr ⟨hs, k, hk1, hk2, hk3⟩))
    · simp only [Option.some.injEq, Prod.mk.injEq] at h
      obtain ⟨rfl, rfl, rfl⟩ := h
      refine ⟨hidx, rfl, rfl, ?_, ?_, Or.inr (Or.inr (Or.inl ⟨h4, h5⟩))⟩
      · simp [select]
      · intro j hj; simp [select, hj]
    · obtain ⟨ha, hb, hc, hd, he, hf⟩ := ih _ _ _ _ _ (Nat.mod_lt _ hpos) h
      exact ⟨ha, hb, hc, hd, he, hf⟩
    · simp only [Option.some.injEq, Prod.mk.injEq] at h
      obtain ⟨rfl, rfl, rfl⟩ := h
      refine ⟨hidx, rfl, rfl, ?_, ?_,
        Or.inr (Or.inr (Or.inr ⟨h6, cur.gc, Nat.le_refl _, by assumption, ?_⟩))⟩
      · simp [selectInput]
      · intro j hj; simp [selectInput, hj]
      · simp [selectInput]
    · obtain ⟨ha, hb, hc, hd, he, hf⟩ := ih _ _ _ _ _ (Nat.mod_lt _ hpos) h
      refine ⟨ha, hb, hc, hd, he, ?_⟩
      rcases hf with hf | hf | hf | ⟨hs, k, hk1, hk2, hk3⟩
      · exact Or.inl hf
      · exact Or.inr (Or.inl hf)
      · exact Or.inr (Or.inr (Or.inl hf))
      · exact Or.inr (Or.inr (Or.inr ⟨hs, k, by simp at hk1; omega, hk2, hk3⟩))
    · obtain ⟨ha, hb, hc, hd, he, hf⟩ := ih _ _ _ _ _ (Nat.mod_lt _ hpos) h
      exact ⟨ha, hb, hc, hd, he, hf⟩

lemma ringDist_eq (n a b : Nat) (ha : a < n) (hb : b < n) :
    ringDist n a b = if a ≤ b then b - a else b + n - a := by
  unfold ringDist
  rcases le_or_lt a b with h | h
  · rw [if_pos h]
    have he : b + n - a = n + (b - a) := by omega
    rw [he, Nat.add_mod_left, Nat.mod_eq_of_lt (by omega)]
  · rw [if_neg (by omega)]
    exact Nat.mod_eq_of_lt (by omega)

lemma ringDist_lt (n a b : Nat) (ha : a < n) (hb : b < n) : ringDist n a b < n := by
  rw [ringDist_eq n a b ha hb]
  split_ifs <;> omega

lemma ringDist_self (n a : Nat) (ha : a < n) : ringDist n a a = 0 := by
  rw [ringDist_eq n a a ha ha]
  simp

lemma ringDist_eq_zero (n a b : Nat) (ha : a < n) (hb : b < n)
    (h : ringDist n a b = 0) : a = b := by
  rw [ringDist_eq n a b ha hb] at h
  split_ifs at h <;> omega

lemma ringDist_succ (n a b : Nat) (ha : a < n) (hb : b < n) (hne : a ≠ b) :
    ringDist n ((a + 1) % n) b + 1 = ringDist n a b := by
  by_cases he : a + 1 = n
  · have h0 : (a + 1) % n = 0 := by rw [he, Nat.mod_self]
    rw [h0, ringDist_eq n 0 b (by omega) hb, ringDist_eq n a b ha hb]
    split_ifs <;> omega
  · have hlt : a + 1 < n := by omega
    rw [Nat.mod_eq_of_lt hlt, ringDist_eq n (a + 1) b hlt hb, ringDist_eq n a b ha hb]
    split_ifs <;> omega

lemma ringDist_sub (n a b c : Nat) (ha : a < n) (hb : b < n) (hc : c < n)
    (h : ringDist n a b ≤ ringDist n a c) :
    ringDist n b c = ringDist n a c - ringDist n a b := by
  rw [ringDist_eq n a b ha hb, ringDist_eq n a c ha hc] at h ⊢
  rw [ringDist_eq n b c hb hc]
  split_ifs at h ⊢ <;> omega

/-- Progress of the scan: when some slot i is unconditionally eligible,
the scan starting at idx with enough fuel to reach i selects a slot,
and the slot it selects is no further (in ring order from idx) than i. -/
lemma scan_reaches (env : Env) (t : Nat) (st : SchedState) (i : Nat)
    (hi : i < st.num_tasks) (helig : alwaysEligible env t st i) :
    ∀ fuel idx cur, idx < st.num_tasks → ringDist st.num_tasks idx i < fuel →
      ∃ sel st2 cur2, scheduleLoop env t st fuel idx cur = some (sel, st2, cur2) ∧
        sel < st.num_tasks ∧
        ringDist st.num_tasks idx sel ≤ ringDist st.num_tasks idx i := by
  intro fuel
  induction fuel with
  | zero => intro idx cur hidx hd; omega
  | succ fuel ih =>
    intro idx cur hidx hd
    have hpos : 0 < st.num_tasks := by omega
    simp only [scheduleLoop]
    split_ifs with h1 h2 h3 h4 h5 h6 h7
    · exact ⟨idx, _, _, rfl, hidx, by rw [ringDist_self _ _ hidx]; exact Nat.zero_le _⟩
    · exact ⟨idx, _, _, rfl, hidx, by rw [ringDist_self _ _ hidx]; exact Nat.zero_le _⟩
    · have hne : idx ≠ i := by
        intro hcon
        subst hcon
        rcases helig with h | ⟨hs, hw⟩ | ⟨hs, _⟩ | ⟨hs, _⟩
        · exact h1 h
        · exact h3 (hw cur.tc)
        · rw [h2] at hs; exact absurd hs (by decide)
        · rw [h2] at hs; exact absurd hs (by decide)
      have hd0 : ringDist st.num_tasks idx i ≠ 0 :=
        fun hc => hne (ringDist_eq_zero _ _ _ hidx hi hc)
      have hsucc := ringDist_succ st.num_tasks idx i hidx hi hne
      obtain ⟨sel, st2, cur2, hs, hsel, hrd⟩ :=
        ih ((idx + 1) % st.num_tasks) { cur with tc := cur.tc + 1 }
          (Nat.mod_lt _ hpos) (by omega)
      refine ⟨sel, st2, cur2, hs, hsel, ?_⟩
      by_cases hsi : sel = idx
      · subst hsi; rw [ringDist_self _ _ hidx]; exact Nat.zero_le _
      · have hsucc2 := ringDist_succ st.num_tasks idx sel hidx hsel
          (fun hh => hsi hh.symm)
        omega
    · exact ⟨idx, _, _, rfl, hidx, by rw [ringDist_self _ _ hidx]; exact Nat.zero_le _⟩
    · have hne : idx ≠ i := by
        intro hcon
        subst hcon
        rcases helig with h | ⟨hs, _⟩ | ⟨hs, hj⟩ | ⟨hs, _⟩
        · exact h1 h
        · rw [h4] at hs; exact absurd hs (by decide)
        · exact h5 hj
        · rw [h4] at hs; exact absurd hs (by decide)
      have hd0 : ringDist st.num_tasks idx i ≠ 0 :=
        fun hc => hne (ringDist_eq_zero _ _ _ hidx hi hc)
      have hsucc := ringDist_succ st.num_tasks idx i hidx hi hne
      obtain ⟨sel, st2, cur2, hs, hsel, hrd⟩ :=
        ih ((idx + 1) % st.num_tasks) cur (Nat.mod_lt _ hpos) (by omega)
      refine ⟨sel, st2, cur2, hs, hsel, ?_⟩
      by_cases hsi : sel = idx
      · subst hsi; rw [ringDist_self _ _ hidx]; exact Nat.zero_le _
      · have hsucc2 := ringDist_succ st.num_tasks idx sel hidx hsel
          (fun hh => hsi hh.symm)
        omega
    · exact ⟨idx, _, _, rfl, hidx, by rw [ringDist_self _ _ hidx]; exact Nat.zero_le _⟩
    · have hne : idx ≠ i := by
        intro hcon
        subst hcon
        rcases helig with h | ⟨hs, _⟩ | ⟨hs, _⟩ | ⟨hs, hin⟩
        · exact h1 h
        · rw [h6] at hs; exact absurd hs (by decide)
        · rw [h6] at hs; exact absurd hs (by decide)
        · exact h7 (hin cur.gc)
      have hd0 : ringDist st.num_tasks idx i ≠ 0 :=
        fun hc => hne (ringDist_eq_zero _ _ _ hidx hi hc)
      have hsucc := ringDist_succ st.num_tasks idx i hidx hi hne
      obtain ⟨sel, st2, cur2, hs, hsel, hrd⟩ :=
        ih ((idx + 1) % st.num_tasks) { cur with gc := cur.gc + 1 }
          (Nat.mod_lt _ hpos) (by omega)
      refine ⟨sel, st2, cur2, hs, hsel, ?_⟩
      by_cases hsi : sel = idx
      · subst hsi; rw [ringDist_self _ _ hidx]; exact Nat.zero_le _
      · have hsucc2 := ringDist_succ st.num_tasks idx sel hidx hsel
          (fun hh => hsi hh.symm)
        omega
    · have hne : idx ≠ i := by
        intro hcon
        subst hcon
        rcases helig with h | ⟨hs, _⟩ | ⟨hs, _⟩ | ⟨hs, _⟩
        · exact h1 h
        · exact h2 hs
        · exact h4 hs
        · exact h6 hs
      have hd0 : ringDist st.num_tasks idx i ≠ 0 :=
        fun hc => hne (ringDist_eq_zero _ _ _ hidx hi hc)
      have hsucc := ringDist_succ st.num_tasks idx i hidx hi hne
      obtain ⟨sel, st2, cur2, hs, hsel, hrd⟩ :=
        ih ((idx + 1) % st.num_tasks) cur (Nat.mod_lt _ hpos) (by omega)
      refine ⟨sel, st2, cur2, hs, hsel, ?_⟩
      by_cases hsi : sel = idx
      · subst hsi; rw [ringDist_self _ _ hidx]; exact Nat.zero_le _
      · have hsucc2 := ringDist_succ st.num_tasks idx sel hidx hsel
          (fun hh => hsi hh.symm)
        omega

/-- When slot t records a join on t itself and no other slot is ever
eligible, the scan selects t as soon as it reaches t, with fuel bounded
by the ring distance. -/
lemma scan_finds_target (env : Env) (t : Nat) (st : SchedState)
    (ht : t < st.num_tasks)
    (hstat : (st.tasks t).status = blocked_on_join)
    (hjt : t = (st.tasks t).join_thread)
    (hothers : ∀ j, j < st.num_tasks → j ≠ t → notEligibleAny env t st j) :
    ∀ fuel idx cur, idx < st.num_tasks → ringDist st.num_tasks idx t < fuel →
      ∃ st2 cur2, scheduleLoop env t st fuel idx cur = some (t, st2, cur2) := by
  intro fuel
  induction fuel with
  | zero => intro idx cur hidx hd; omega
  | succ fuel ih =>
    intro idx cur hidx hd
    have hpos : 0 < st.num_tasks := by omega
    by_cases hit : idx = t
    · subst hit
      have hns : ¬ (st.tasks idx).status = ready := by rw [hstat]; decide
      have hns2 : ¬ (st.tasks idx).status = blocked_on_sleep := by rw [hstat]; decide
      refine ⟨select st idx, cur, ?_⟩
      simp only [scheduleLoop]
      rw [if_neg hns, if_neg hns2, if_pos hstat, if_pos hjt]
    · obtain ⟨hnr, hnsl, hnj, hni⟩ := hothers idx hidx hit
      have hd0 : ringDist st.num_tasks idx t ≠ 0 :=
        fun hc => hit (ringDist_eq_zero _ _ _ hidx ht hc)
      have hsucc := ringDist_succ st.num_tasks idx t hidx ht hit
      simp only [scheduleLoop]
      split_ifs with h1 h2 h3 h4 h5 h6 h7
      · exact absurd h1 hnr
      · exact absurd h3 (Nat.not_le.mpr (hnsl h2 cur.tc))
      · exact ih _ _ (Nat.mod_lt _ hpos) (by omega)
      · exact absurd h5 (hnj h4)
      · exact ih _ _ (Nat.mod_lt _ hpos) (by omega)
      · exact absurd (hni h6 cur.gc) h7
      · exact ih _ _ (Nat.mod_lt _ hpos) (by omega)
      · exact ih _ _ (Nat.mod_lt _ hpos) (by omega)

/-- The scan of the source agrees, selected slot for selected slot, with
the ring scan written from the spec, under a static environment (fixed
time now, fixed input-probe answer c). -/
lemma scanSpec_agree (now : Nat) (c : Int) (t : Nat) (st : SchedState) :
    ∀ fuel idx cur,
      (scheduleLoop ⟨fun _ => now, fun _ => c⟩ t st fuel idx cur).map (fun r => r.1)
        = specScan t now (decide (c ≠ ERR)) st fuel idx := by
  intro fuel
  induction fuel with
  | zero => intro idx cur; simp [scheduleLoop, specScan]
  | succ fuel ih =>
    intro idx cur
    by_cases h1 : (st.tasks idx).status = ready
    · simp [scheduleLoop, specScan, specEligible, h1]
    · by_cases h2 : (st.tasks idx).status = blocked_on_sleep
      · by_cases h3 : (st.tasks idx).wake_time ≤ now
        · simp [scheduleLoop, specScan, specEligible, h1, h2, h3,
            ready, blocked_on_sleep]
        · simp [scheduleLoop, specScan, specEligible, h1, h2, h3, ih,
            ready, blocked_on_sleep]
      · by_cases h4 : (st.tasks idx).status = blocked_on_join
        · by_cases h5 : t = (st.tasks idx).join_thread
          · simp [scheduleLoop, specScan, specEligible, h1, h2, h4, if_pos h5,
              ready, blocked_on_sleep, blocked_on_join]
          · simp [scheduleLoop, specScan, specEligible, h1, h2, h4, h5, ih,
              ready, blocked_on_sleep, blocked_on_join]
        · by_cases h6 : (st.tasks idx).status = blocked_on_input
          · by_cases h7 : c = ERR
            · rw [h7] at ih ⊢
              simp [scheduleLoop, specScan, specEligible, h1, h2, h4, h6, ih,
                ready, blocked_on_sleep, blocked_on_join, blocked_on_input]
            · simp [scheduleLoop, specScan, specEligible, h1, h2, h4, h6, h7,
                ready, blocked_on_sleep, blocked_on_join, blocked_on_input]
          · simp [scheduleLoop, specScan, specEligible, h1, h2, h4, h6, ih]

/-- A completed schedule call, made while no task of the table is
running (every caller blocks itself first), reestablishes that exactly
the selected task runs and that the current handle is in range. -/
lemma schedule_one_running (env : Env) (fuel t : Nat) (st : SchedState) (cur : Cursors)
    (st2 : SchedState) (cur2 : Cursors) (b : Bool)
    (hn : 0 < st.num_tasks)
    (hnr : ∀ j, (st.tasks j).status ≠ is_running)
    (h : schedule env fuel t st cur = some (st2, cur2, b)) :
    uniqueRunning st2 ∧ st2.current_task < st2.num_tasks ∧ st2.num_tasks = st.num_tasks := by
  unfold schedule at h
  cases hs : scheduleLoop env t st fuel ((t + 1) % st.num_tasks) cur with
  | none => rw [hs] at h; simp at h
  | some r =>
    obtain ⟨sel, st3, cur3⟩ := r
    rw [hs] at h
    simp only [Option.some.injEq, Prod.mk.injEq] at h
    obtain ⟨rfl, rfl, rfl⟩ := h
    obtain ⟨ha, hb2, hc, hd, he, _⟩ :=
      scheduleLoop_spec env t st fuel _ cur sel st3 cur3 (Nat.mod_lt _ hn) hs
    refine ⟨⟨?_, ?_⟩, ?_, hc⟩
    · rw [hb2]; exact hd
    · intro j hj
      rw [hb2] at hj
      rw [he j hj]
      exact hnr j
    · rw [hb2, hc]; exact ha

/-- Every blocking primitive first sets the status of the current task
to a non-running value, so after the record update no task is running. -/
lemma setCurrent_not_running (st : SchedState) (f : task_info → task_info)
    (hInv : uniqueRunning st)
    (hf : ∀ x, (f x).status ≠ is_running) :
    ∀ j, ((setCurrent st f).tasks j).status ≠ is_running := by
  intro j
  by_cases hj : j = st.current_task
  · subst hj
    simp only [setCurrent]
    simp only [if_true, eq_self_iff_true]
    exact hf _
  · simp only [setCurrent]
    rw [if_neg hj]
    exact hInv.2 j hj

/-- A completed public operation preserves the scheduler invariant. -/
lemma runOp_inv (env : Env) (fuel : Nat) (op : Op) (st : SchedState) (cur : Cursors)
    (st2 : SchedState) (cur2 : Cursors) (hInv : Inv st)
    (h : runOp env fuel op st cur = some (st2, cur2)) : Inv st2 := by
  obtain ⟨⟨hrun, huniq⟩, hlt⟩ := hInv
  have hn : 0 < st.num_tasks := by omega
  cases op with
  | create =>
    simp only [runOp, Option.some.injEq, Prod.mk.injEq] at h
    obtain ⟨rfl, rfl⟩ := h
    refine ⟨⟨?_, ?_⟩, ?_⟩
    · simp only [task_create]
      rw [if_neg (by omega : ¬ st.current_task = st.num_tasks)]
      exact hrun
    · intro j hj
      simp only [task_create] at hj ⊢
      by_cases hje : j = st.num_tasks
      · rw [if_pos hje]
        rw [ready, is_running]
        simp
      · rw [if_neg hje]
        exact huniq j hj
    · simp only [task_create]
      omega
  | sleep ms =>
    simp only [runOp, task_sleep] at h
    cases hsch : schedule env fuel st.current_task
        (task_sleep_rec (env.timeSeq cur.tc) ms st) { cur with tc := cur.tc + 1 } with
    | none => rw [hsch] at h; simp at h
    | some r =>
      obtain ⟨st3, cur3, b⟩ := r
      rw [hsch] at h
      simp only [Option.map_some', Option.some.injEq, Prod.mk.injEq] at h
      obtain ⟨rfl, rfl⟩ := h
      have hnr := setCurrent_not_running st
        (fun x => { x with status := blocked_on_sleep, wake_time := env.timeSeq cur.tc + ms })
        ⟨hrun, huniq⟩
        (fun x => by rw [blocked_on_sleep, is_running]; simp)
      obtain ⟨h1, h2, _⟩ := schedule_one_running env fuel st.current_task _ _ _ _ _
        (by simpa [task_sleep_rec, setCurrent] using hn) hnr hsch
      exact ⟨h1, h2⟩
  | wait hd =>
    simp only [runOp, task_wait] at h
    cases hsch : schedule env fuel st.current_task (task_wait_rec hd st) cur with
    | none => rw [hsch] at h; simp at h
    | some r =>
      obtain ⟨st3, cur3, b⟩ := r
      rw [hsch] at h
      simp only [Option.map_some', Option.some.injEq, Prod.mk.injEq] at h
      obtain ⟨rfl, rfl⟩ := h
      have hnr := setCurrent_not_running st
        (fun x => { x with status := blocked_on_join, join_thread := hd })
        ⟨hrun, huniq⟩
        (fun x => by rw [blocked_on_join, is_running]; simp)
      obtain ⟨h1, h2, _⟩ := schedule_one_running env fuel st.current_task _ _ _ _ _
        (by simpa [task_wait_rec, setCurrent] using hn) hnr hsch
      exact ⟨h1, h2⟩
  | readchar =>
    simp only [runOp, task_readchar] at h
    cases hsch : schedule env fuel st.current_task (task_readchar_rec st) cur with
    | none => rw [hsch] at h; simp at h
    | some r =>
      obtain ⟨st3, cur3, b⟩ := r
      rw [hsch] at h
      simp only [Option.map_some', Option.some.injEq, Prod.mk.injEq] at h
      obtain ⟨rfl, rfl⟩ := h
      have hnr := setCurrent_not_running st
        (fun x => { x with status := blocked_on_input }) ⟨hrun, huniq⟩
        (fun x => by rw [blocked_on_input, is_running]; simp)
      obtain ⟨h1, h2, _⟩ := schedule_one_running env fuel st.current_task _ _ _ _ _
        (by simpa [task_readchar_rec, setCurrent] using hn) hnr hsch
      exact ⟨h1, h2⟩
  | exitTask =>
    simp only [runOp, task_exit] at h
    cases hsch : schedule env fuel st.current_task (task_exit_rec st) cur with
    | none => rw [hsch] at h; simp at h
    | some r =>
      obtain ⟨st3, cur3, b⟩ := r
      rw [hsch] at h
      simp only [Option.map_some', Option.some.injEq, Prod.mk.injEq] at h
      obtain ⟨rfl, rfl⟩ := h
      have hnr := setCurrent_not_running st
        (fun x => { x with status := exited }) ⟨hrun, huniq⟩
        (fun x => by rw [exited, is_running]; simp)
      obtain ⟨h1, h2, _⟩ := schedule_one_running env fuel st.current_task _ _ _ _ _
        (by simpa [task_exit_rec, setCurrent] using hn) hnr hsch
      exact ⟨h1, h2⟩

/-- A completed sequence of public operations preserves the invariant. -/
lemma runOps_inv (env : Env) (fuel : Nat) :
    ∀ (ops : List Op) (st : SchedState) (cur : Cursors) (st2 : SchedState) (cur2 : Cursors),
      Inv st → runOps env fuel ops st cur = some (st2, cur2) → Inv st2 := by
  intro ops
  induction ops with
  | nil =>
    intro st cur st2 cur2 hInv h
    simp only [runOps, Option.some.injEq, Prod.mk.injEq] at h
    obtain ⟨rfl, rfl⟩ := h
    exact hInv
  | cons op ops ih =>
    intro st cur st2 cur2 hInv h
    simp only [runOps] at h
    cases ho : runOp env fuel op st cur with
    | none => rw [ho] at h; simp at h
    | some r =>
      obtain ⟨st3, cur3⟩ := r
      rw [ho] at h
      exact ih st3 cur3 st2 cur2 (runOp_inv env fuel op st cur st3 cur3 hInv ho) h

/-- Round-robin liveness: a sleeping slot i whose deadline the clock has
passed is selected within a number of yields bounded by its ring
distance, as long as the tasks that do get selected keep yielding and
do not touch slot i, the task count or the current handle between
yields. -/
lemma selects_within (env : Env) (acts : Nat → SchedState → SchedState) (i W : Nat)
    (hacts : ∀ k s, (acts k s).num_tasks = s.num_tasks ∧
      (acts k s).current_task = s.current_task ∧ (acts k s).tasks i = s.tasks i)
    (htime : ∀ k, W ≤ env.timeSeq k) :
    ∀ m st cur, i < st.num_tasks → st.current_task < st.num_tasks →
      (st.tasks i).status = blocked_on_sleep →
      (st.tasks i).wake_time = W →
      ringDist st.num_tasks ((st.current_task + 1) % st.num_tasks) i < m →
      eventuallySelects env acts i m st cur := by
  intro m
  induction m with
  | zero => intro st cur h1 h2 h3 h4 hd; omega
  | succ m ih =>
    intro st cur hi hc h3 h4 hd
    have hn : 0 < st.num_tasks := by omega
    have helig : alwaysEligible env st.current_task st i :=
      Or.inr (Or.inl ⟨h3, fun k => by rw [h4]; exact htime k⟩)
    obtain ⟨sel, st2, cur2, hs, hsel, hrd⟩ :=
      scan_reaches env st.current_task st i hi helig st.num_tasks
        ((st.current_task + 1) % st.num_tasks) cur (Nat.mod_lt _ hn)
        (ringDist_lt _ _ _ (Nat.mod_lt _ hn) hi)
    simp only [eventuallySelects, hs]
    by_cases hsi : sel = i
    · exact Or.inl hsi
    · right
      obtain ⟨ha, hb, hc2, hd2, he, _⟩ :=
        scheduleLoop_spec env st.current_task st st.num_tasks _ cur sel st2 cur2
          (Nat.mod_lt _ hn) hs
      obtain ⟨hn3, hc3, ht3⟩ := hacts m st2
      have hti : (acts m st2).tasks i = st.tasks i := by
        rw [ht3, he i (Ne.symm hsi)]
      apply ih (acts m st2) cur2
      · rw [hn3, hc2]; exact hi
      · rw [hn3, hc2, hc3, hb]; exact ha
      · rw [hti]; exact h3
      · rw [hti]; exact h4
      · rw [hn3, hc2, hc3, hb]
        have hidx : (st.current_task + 1) % st.num_tasks < st.num_tasks := Nat.mod_lt _ hn
        have hadd := ringDist_sub st.num_tasks ((st.current_task + 1) % st.num_tasks)
          sel i hidx hsel hi hrd
        have hsucc := ringDist_succ st.num_tasks sel i hsel hi hsi
        have hinj : ringDist st.num_tasks ((st.current_task + 1) % st.num_tasks) sel
            ≠ ringDist st.num_tasks ((st.current_task + 1) % st.num_tasks) i := by
          intro hcone
          have hz : ringDist st.num_tasks sel i = 0 := by omega
          exact hsi (ringDist_eq_zero _ _ _ hsel hi hz)
        omega

/-- A completed schedule call on behalf of a yielder other than B can
select neither a slot A that is join-blocked on B nor the exited slot B
itself; both records survive untouched and neither becomes current. -/
lemma c10_schedule (env : Env) (fuel t : Nat) (st : SchedState) (cur : Cursors)
    (st2 : SchedState) (cur2 : Cursors) (b : Bool) (A B : Nat)
    (hA : (st.tasks A).status = blocked_on_join)
    (hAj : (st.tasks A).join_thread = B)
    (hB : (st.tasks B).status = exited)
    (htB : t ≠ B)
    (hn : 0 < st.num_tasks)
    (h : schedule env fuel t st cur = some (st2, cur2, b)) :
    st2.tasks A = st.tasks A ∧ st2.tasks B = st.tasks B ∧
      st2.current_task ≠ A ∧ st2.current_task ≠ B ∧ st2.num_tasks = st.num_tasks := by
  unfold schedule at h
  cases hs : scheduleLoop env t st fuel ((t + 1) % st.num_tasks) cur with
  | none => rw [hs] at h; simp at h
  | some r =>
    obtain ⟨sel, st3, cur3⟩ := r
    rw [hs] at h
    simp only [Option.some.injEq, Prod.mk.injEq] at h
    obtain ⟨rfl, rfl, rfl⟩ := h
    obtain ⟨ha, hb, hc, hd, he, hf⟩ :=
      scheduleLoop_spec env t st fuel _ cur sel st3 cur3 (Nat.mod_lt _ hn) hs
    have hselA : sel ≠ A := by
      intro hcon
      subst hcon
      rcases hf with hx | ⟨hx, _⟩ | ⟨_, hx⟩ | ⟨hx, _⟩
      · rw [hA] at hx; exact absurd hx (by decide)
      · rw [hA] at hx; exact absurd hx (by decide)
      · rw [hAj] at hx; exact htB hx
      · rw [hA] at hx; exact absurd hx (by decide)
    have hselB : sel ≠ B := by
      intro hcon
      subst hcon
      rcases hf with hx | ⟨hx, _⟩ | ⟨hx, _⟩ | ⟨hx, _⟩ <;>
        (rw [hB] at hx; exact absurd hx (by decide))
    refine ⟨he A (Ne.symm hselA), he B (Ne.symm hselB), ?_, ?_, hc⟩
    · rw [hb]; exact hselA
    · rw [hb]; exact hselB

lemma setCurrent_other (st : SchedState) (f : task_info → task_info) (j : Nat)
    (hj : j ≠ st.current_task) : (setCurrent st f).tasks j = st.tasks j := by
  simp only [setCurrent]
  rw [if_neg hj]

/-- One completed public operation can neither touch the record of a
slot A join-blocked on an exited slot B, nor touch B, because the
operation acts on the running task (which is neither) and the ensuing
scan cannot select either of them. -/
lemma c10_op (env : Env) (fuel : Nat) (op : Op) (st : SchedState) (cur : Cursors)
    (st2 : SchedState) (cur2 : Cursors) (A B : Nat)
    (hInv : Inv st) (hAn : A < st.num_tasks) (hBn : B < st.num_tasks)
    (hA : (st.tasks A).status = blocked_on_join)
    (hAj : (st.tasks A).join_thread = B)
    (hB : (st.tasks B).status = exited)
    (h : runOp env fuel op st cur = some (st2, cur2)) :
    Inv st2 ∧ A < st2.num_tasks ∧ B < st2.num_tasks ∧
      st2.tasks A = st.tasks A ∧ st2.tasks B = st.tasks B := by
  have hInv2 := runOp_inv env fuel op st cur st2 cur2 hInv h
  obtain ⟨⟨hrun, huniq⟩, hlt⟩ := hInv
  have hn : 0 < st.num_tasks := by omega
  have hcurA : A ≠ st.current_task := by
    intro hcon; rw [hcon] at hA; rw [hrun] at hA; exact absurd hA (by decide)
  have hcurB : B ≠ st.current_task := by
    intro hcon; rw [hcon] at hB; rw [hrun] at hB; exact absurd hB (by decide)
  cases op with
  | create =>
    simp only [runOp, Option.some.injEq, Prod.mk.injEq] at h
    obtain ⟨rfl, rfl⟩ := h
    refine ⟨hInv2, ?_, ?_, ?_, ?_⟩
    · simp only [task_create]; omega
    · simp only [task_create]; omega
    · simp only [task_create]; rw [if_neg (by omega)]
    · simp only [task_create]; rw [if_neg (by omega)]
  | sleep ms =>
    simp only [runOp, task_sleep] at h
    cases hsch : schedule env fuel st.current_task
        (task_sleep_rec (env.timeSeq cur.tc) ms st) { cur with tc := cur.tc + 1 } with
    | none => rw [hsch] at h; simp at h
    | some r =>
      obtain ⟨st3, cur3, b⟩ := r
      rw [hsch] at h
      simp only [Option.map_some', Option.some.injEq, Prod.mk.injEq] at h
      obtain ⟨rfl, rfl⟩ := h
      have heqA := setCurrent_other st
        (fun x => { x with status := blocked_on_sleep, wake_time := env.timeSeq cur.tc + ms })
        A hcurA
      have heqB := setCurrent_other st
        (fun x => { x with status := blocked_on_sleep, wake_time := env.timeSeq cur.tc + ms })
        B hcurB
      obtain ⟨h1, h2, _, _, h5⟩ := c10_schedule env fuel st.current_task _ _ _ _ _ A B
        (by rw [task_sleep_rec, heqA]; exact hA)
        (by rw [task_sleep_rec, heqA]; exact hAj)
        (by rw [task_sleep_rec, heqB]; exact hB)
        (fun hcon => hcurB hcon.symm)
        (by simpa [task_sleep_rec, setCurrent] using hn) hsch
      rw [task_sleep_rec] at h1 h2 h5
      rw [heqA] at h1
      rw [heqB] at h2
      exact ⟨hInv2, by rw [h5]; exact hAn, by rw [h5]; exact hBn, h1, h2⟩
  | wait hd =>
    simp only [runOp, task_wait] at h
    cases hsch : schedule env fuel st.current_task (task_wait_rec hd st) cur with
    | none => rw [hsch] at h; simp at h
    | some r =>
      obtain ⟨st3, cur3, b⟩ := r
      rw [hsch] at h
      simp only [Option.map_some', Option.some.injEq, Prod.mk.injEq] at h
      obtain ⟨rfl, rfl⟩ := h
      have heqA := setCurrent_other st
        (fun x => { x with status := blocked_on_join, join_thread := hd }) A hcurA
      have heqB := setCurrent_other st
        (fun x => { x with status := blocked_on_join, join_thread := hd }) B hcurB
      obtain ⟨h1, h2, _, _, h5⟩ := c10_schedule env fuel st.current_task _ _ _ _ _ A B
        (by rw [task_wait_rec, heqA]; exact hA)
        (by rw [task_wait_rec, heqA]; exact hAj)
        (by rw [task_wait_rec, heqB]; exact hB)
        (fun hcon => hcurB hcon.symm)
        (by simpa [task_wait_rec, setCurrent] using hn) hsch
      rw [task_wait_rec] at h1 h2 h5
      rw [heqA] at h1
      rw [heqB] at h2
      exact ⟨hInv2, by rw [h5]; exact hAn, by rw [h5]; exact hBn, h1, h2⟩
  | readchar =>
    simp only [runOp, task_readchar] at h
    cases hsch : schedule env fuel st.current_task (task_readchar_rec st) cur with
    | none => rw [hsch] at h; simp at h
    | some r =>
      obtain ⟨st3, cur3, b⟩ := r
      rw [hsch] at h
      simp only [Option.map_some', Option.some.injEq, Prod.mk.injEq] at h
      obtain ⟨rfl, rfl⟩ := h
      have heqA := setCurrent_other st
        (fun x => { x with status := blocked_on_input }) A hcurA
      have heqB := setCurrent_other st
        (fun x => { x with status := blocked_on_input }) B hcurB
      obtain ⟨h1, h2, _, _, h5⟩ := c10_schedule env fuel st.current_task _ _ _ _ _ A B
        (by rw [task_readchar_rec, heqA]; exact hA)
        (by rw [task_readchar_rec, heqA]; exact hAj)
        (by rw [task_readchar_rec, heqB]; exact hB)
        (fun hcon => hcurB hcon.symm)
        (by simpa [task_readchar_rec, setCurrent] using hn) hsch
      rw [task_readchar_rec] at h1 h2 h5
      rw [heqA] at h1
      rw [heqB] at h2
      exact ⟨hInv2, by rw [h5]; exact hAn, by rw [h5]; exact hBn, h1, h2⟩
  | exitTask =>
    simp only [runOp, task_exit] at h
    cases hsch : schedule env fuel st.current_task (task_exit_rec st) cur with
    | none => rw [hsch] at h; simp at h
    | some r =>
      obtain ⟨st3, cur3, b⟩ := r
      rw [hsch] at h
      simp only [Option.map_some', Option.some.injEq, Prod.mk.injEq] at h
      obtain ⟨rfl, rfl⟩ := h
      have heqA := setCurrent_other st
        (fun x => { x with status := exited }) A hcurA
      have heqB := setCurrent_other st
        (fun x => { x with status := exited }) B hcurB
      obtain ⟨h1, h2, _, _, h5⟩ := c10_schedule env fuel st.current_task _ _ _ _ _ A B
        (by rw [task_exit_rec, heqA]; exact hA)
        (by rw [task_exit_rec, heqA]; exact hAj)
        (by rw [task_exit_rec, heqB]; exact hB)
        (fun hcon => hcurB hcon.symm)
        (by simpa [task_exit_rec, setCurrent] using hn) hsch
      rw [task_exit_rec] at h1 h2 h5
      rw [heqA] at h1
      rw [heqB] at h2
      exact ⟨hInv2, by rw [h5]; exact hAn, by rw [h5]; exact hBn, h1, h2⟩

/-- Over any completed sequence of public operations, a slot A
join-blocked on an exited slot B keeps its record unchanged, and B
stays exited. -/
lemma c10_runOps (env : Env) (fuel : Nat) :
    ∀ (ops : List Op) (st : SchedState) (cur : Cursors) (st2 : SchedState) (cur2 : Cursors)
      (A B : Nat),
      Inv st → A < st.num_tasks → B < st.num_tasks →
      (st.tasks A).status = blocked_on_join →
      (st.tasks A).join_thread = B →
      (st.tasks B).status = exited →
      runOps env fuel ops st cur = some (st2, cur2) →
      Inv st2 ∧ st2.tasks A = st.tasks A ∧ st2.tasks B = st.tasks B := by
  intro ops
  induction ops with
  | nil =>
    intro st cur st2 cur2 A B hInv _ _ _ _ _ h
    simp only [runOps, Option.some.injEq, Prod.mk.injEq] at h
    obtain ⟨rfl, rfl⟩ := h
    exact ⟨hInv, rfl, rfl⟩
  | cons op ops ih =>
    intro st cur st2 cur2 A B hInv hAn hBn hA hAj hB h
    simp only [runOps] at h
    cases ho : runOp env fuel op st cur with
    | none => rw [ho] at h; simp at h
    | some r =>
      obtain ⟨st3, cur3⟩ := r
      rw [ho] at h
      obtain ⟨hInv3, hAn3, hBn3, heqA, heqB⟩ :=
        c10_op env fuel op st cur st3 cur3 A B hInv hAn hBn hA hAj hB ho
      obtain ⟨hInv2, heqA2, heqB2⟩ := ih st3 cur3 st2 cur2 A B hInv3 hAn3 hBn3
        (by rw [heqA]; exact hA) (by rw [heqA]; exact hAj) (by rw [heqB]; exact hB) h
      exact ⟨hInv2, by rw [heqA2, heqA], by rw [heqB2, heqB]⟩

/-- The invariant holds right after scheduler_init. -/
lemma startState_inv : Inv startState := by
  refine ⟨⟨?_, ?_⟩, ?_⟩
  · simp [startState, scheduler_init, initState]
  · intro j hj
    simp only [startState, scheduler_init, initState] at hj ⊢
    rw [if_neg hj]
    rw [is_running]
    simp
  · simp [startState, scheduler_init, initState]

/-- Claim C1.  The code never performs a context switch: in the run
where main task 0 of a two-task table calls task_sleep(100) and the
scan selects the ready task 1, different from the caller 0, schedule
still returns into the caller with the switch flag false, because the
loop assigned current_task = index before the comparison
index == current_task guarding swapcontext, making it always true.
The claim requires a transfer of control into the saved context of task 1 here. -/
theorem schedule_never_context_switches :
    runC1 = some (select (task_sleep_rec 0 100 twoTasks) 1, ⟨1, 0⟩, false)
    ∧ (select (task_sleep_rec 0 100 twoTasks) 1).current_task = 1
    ∧ twoTasks.current_task = 0
    ∧ ((task_sleep_rec 0 100 twoTasks).tasks 0).status = blocked_on_sleep
    ∧ ¬ (select (task_sleep_rec 0 100 twoTasks) 1).current_task = twoTasks.current_task := by
  refine ⟨rfl, rfl, rfl, rfl, by decide⟩

/-- Claim C2.  After scheduler_init, after every completed sequence of
public operations (task_create, task_sleep, task_wait, task_readchar
and the exit path) exactly one task of the table has status is_running. -/
theorem exactly_one_running (env : Env) (fuel : Nat) (ops : List Op)
    (cur : Cursors) (st2 : SchedState) (cur2 : Cursors)
    (h : runOps env fuel ops startState cur = some (st2, cur2)) :
    uniqueRunning st2 :=
  (runOps_inv env fuel ops startState cur st2 cur2 startState_inv h).1

/-- Witness for C2: the invariant evaluated after the concrete completed
trace create; sleep 0. -/
theorem exactly_one_running_witness : uniqueRunning wst2 :=
  exactly_one_running envA 4 wops2 ⟨0, 0⟩ wst2 wcur2 rfl

/-- Claim C3.  The code has no capacity check: with the table already
holding MAX_TASKS = 128 tasks, task_create does not fail, hands out the
out-of-range slot index 128 as the handle and leaves num_tasks = 129,
exceeding the capacity, where the claim requires a CapacityExceeded
failure with num_tasks unchanged. -/
theorem task_create_overflows_capacity :
    stC3.num_tasks = MAX_TASKS
    ∧ (task_create stC3).1.num_tasks = MAX_TASKS + 1
    ∧ (task_create stC3).2 = MAX_TASKS
    ∧ ¬ (task_create stC3).1.num_tasks ≤ MAX_TASKS
    ∧ ¬ (task_create stC3).2 < MAX_TASKS := by
  refine ⟨?_, ?_, ?_, ?_, ?_⟩ <;> decide

/-- Claim C4 counterexample.  Main task 0 calls task_wait(1) before the function of task
1 returns; task 1 then merely sleeps (yielding without
exiting), and the scheduler re-selects task 0: after the completed
trace, task 0 is current and running with join target 1 while task 1
has status blocked_on_sleep, which is not exited. -/
theorem wait_resumes_before_exit_cex :
    runC4 = some (stC4, (runC4.getD default).2)
    ∧ stC4.current_task = 0
    ∧ (stC4.tasks 0).status = is_running
    ∧ (stC4.tasks 0).join_thread = 1
    ∧ (stC4.tasks 1).status = blocked_on_sleep
    ∧ blocked_on_sleep ≠ exited := by
  refine ⟨rfl, rfl, rfl, rfl, rfl, by decide⟩

/-- Claim C4 amended.  A task A blocked in task_wait(B) is not
re-selected before B itself next yields: a scan on behalf of any
yielder other than B never selects A, because the join branch demands
that the yielder equal the recorded join target — the own
status of the target (exited or not) is never consulted. -/
theorem join_selection_requires_target_yield (env : Env) (t : Nat) (st : SchedState)
    (fuel idx : Nat) (cur : Cursors) (A B sel : Nat) (st2 : SchedState) (cur2 : Cursors)
    (hidx : idx < st.num_tasks)
    (hA : (st.tasks A).status = blocked_on_join)
    (hAj : (st.tasks A).join_thread = B)
    (htB : t ≠ B)
    (h : scheduleLoop env t st fuel idx cur = some (sel, st2, cur2)) :
    sel ≠ A := by
  intro hcon
  subst hcon
  obtain ⟨_, _, _, _, _, hf⟩ := scheduleLoop_spec env t st fuel idx cur sel st2 cur2 hidx h
  rcases hf with hx | ⟨hx, _⟩ | ⟨_, hx⟩ | ⟨hx, _⟩
  · rw [hA] at hx; exact absurd hx (by decide)
  · rw [hA] at hx; exact absurd hx (by decide)
  · rw [hAj] at hx; exact htB hx
  · rw [hA] at hx; exact absurd hx (by decide)

/-- Witness for the amended C4: slot 0 waits on task 1; a scan on behalf
of yielder 0 (not the target) selects the ready slot 1, not slot 0. -/
theorem join_selection_requires_target_yield_witness :
    ((scheduleLoop envA 0 stW4 4 1 ⟨0, 0⟩).getD default).1 = 1
    ∧ ((scheduleLoop envA 0 stW4 4 1 ⟨0, 0⟩).getD default).1 ≠ 0 := by
  refine ⟨rfl, ?_⟩
  exact join_selection_requires_target_yield envA 0 stW4 4 1 ⟨0, 0⟩ 0 1
    ((scheduleLoop envA 0 stW4 4 1 ⟨0, 0⟩).getD default).1
    ((scheduleLoop envA 0 stW4 4 1 ⟨0, 0⟩).getD default).2.1
    ((scheduleLoop envA 0 stW4 4 1 ⟨0, 0⟩).getD default).2.2
    (by decide) rfl rfl (by decide) rfl

/-- Claim C5 counterexample.  task_wait(5) called from the one-task
table performs no validation and reports no error at the call site: it
records the never-issued handle 5 as the join target, blocks the
caller, and the ensuing scan just spins (still none after 64
iterations) — the error is neither raised nor deferred, the call simply
never completes. -/
theorem task_wait_invalid_handle_cex :
    ((task_wait_rec 5 startState).tasks 0).status = blocked_on_join
    ∧ ((task_wait_rec 5 startState).tasks 0).join_thread = 5
    ∧ task_wait envA 64 5 startState ⟨0, 0⟩ = none := by
  refine ⟨rfl, rfl, rfl⟩

/-- Claim C5 amended.  task_wait performs no handle validation: it
records whatever handle it is given and blocks the caller; when the
handle is outside the range of existing tasks, no scan on behalf of any
existing task can ever select the caller, since the join branch would
force the yielder index, below num_tasks, to equal the recorded handle,
at or above num_tasks — the caller blocks forever. -/
theorem task_wait_no_validation_blocks (env : Env) (t : Nat) (st : SchedState)
    (fuel idx : Nat) (cur : Cursors) (A hd sel : Nat) (st2 : SchedState) (cur2 : Cursors)
    (hidx : idx < st.num_tasks)
    (ht : t < st.num_tasks)
    (hh : st.num_tasks ≤ hd)
    (hA : (st.tasks A).status = blocked_on_join)
    (hAj : (st.tasks A).join_thread = hd)
    (hs : scheduleLoop env t st fuel idx cur = some (sel, st2, cur2)) :
    sel ≠ A := by
  intro hcon
  subst hcon
  obtain ⟨_, _, _, _, _, hf⟩ := scheduleLoop_spec env t st fuel idx cur sel st2 cur2 hidx hs
  rcases hf with hx | ⟨hx, _⟩ | ⟨_, hx⟩ | ⟨hx, _⟩
  · rw [hA] at hx; exact absurd hx (by decide)
  · rw [hA] at hx; exact absurd hx (by decide)
  · rw [hAj] at hx; omega
  · rw [hA] at hx; exact absurd hx (by decide)

/-- Witness for the amended C5: slot 0 is blocked on the never-issued
handle 5 in a two-task table; a scan on behalf of the existing yielder
1 selects the ready slot 1, never the invalid joiner 0. -/
theorem task_wait_no_validation_blocks_witness :
    ((scheduleLoop envA 1 stW5 4 0 ⟨0, 0⟩).getD default).1 = 1
    ∧ ((scheduleLoop envA 1 stW5 4 0 ⟨0, 0⟩).getD default).1 ≠ 0 := by
  refine ⟨rfl, ?_⟩
  exact task_wait_no_validation_blocks envA 1 stW5 4 0 ⟨0, 0⟩ 0 5
    ((scheduleLoop envA 1 stW5 4 0 ⟨0, 0⟩).getD default).1
    ((scheduleLoop envA 1 stW5 4 0 ⟨0, 0⟩).getD default).2.1
    ((scheduleLoop envA 1 stW5 4 0 ⟨0, 0⟩).getD default).2.2
    (by decide) (by decide) (by decide) rfl rfl rfl

/-- Claim C6.  Under a static environment (fixed clock value now, fixed
input-probe answer c) the scan of schedule(t) starts at slot
(t + 1) mod num_tasks, advances by one modulo the current task count,
and selects exactly the slot that the ring scan written from the spec
picks: the first eligible slot in ring order, with no priority
weighting — for every fuel bound, both sides agree, selection for
selection and spin for spin. -/
theorem schedule_refines_ring_scan (now : Nat) (c : Int) (t fuel : Nat)
    (st : SchedState) (cur : Cursors) :
    (scheduleLoop ⟨fun _ => now, fun _ => c⟩ t st fuel ((t + 1) % st.num_tasks) cur).map
        (fun r => r.1)
      = specScan t now (decide (c ≠ ERR)) st fuel ((t + 1) % st.num_tasks) :=
  scanSpec_agree now c t st fuel ((t + 1) % st.num_tasks) cur

/-- Claim C7.  Round trip broken by the missing context switch: main
task 0 calls task_readchar while task 1 is ready; the scan selects task
1 and schedule returns into the physical caller, so the call of task 0
returns the uninitialised input 0 of task 1 although no input was consumed.
The next task_readchar call (the table now records task 1 as current)
finds task 0 blocked on input, consumes the pending key 120, stores it
into the record of task 0 as the claim describes — but returns it from this
second call: the value consumed at the selection of task 0 is returned by
the pending call of task 1, not by the call of task 0. -/
theorem readchar_returns_crossed_input :
    rC7b = some rC7bv
    ∧ rC7c = some rC7cv
    ∧ rC7bv.2.2.2 = 0
    ∧ rC7cv.2.2.2 = 120
    ∧ (rC7cv.1.tasks 0).input = 120
    ∧ rC7cv.1.current_task = 0
    ∧ (rC7cv.1.tasks 0).status = is_running
    ∧ rC7bv.2.2.2 ≠ rC7cv.2.2.2 := by
  refine ⟨rfl, rfl, rfl, rfl, rfl, rfl, rfl, by decide⟩

/-- Claim C8.  task_sleep records the wake deadline as the clock value
read at the call plus the duration; a slot whose record carries that
deadline is selected by a sleep-branch probe only at a step whose clock
reading has reached the deadline, so the sleeper is never re-selected
while the clock is below it; and once every clock reading from some
point on is at or past the deadline, cooperative execution (each
selected task eventually yields and leaves the slot of the sleeper, the task
count and the current handle alone) selects the sleeper within
num_tasks yields. -/
theorem task_sleep_contract (env : Env) (ms : Nat) (st : SchedState) (cur : Cursors) :
    (((task_sleep_rec (env.timeSeq cur.tc) ms st).tasks st.current_task).status
        = blocked_on_sleep
      ∧ ((task_sleep_rec (env.timeSeq cur.tc) ms st).tasks st.current_task).wake_time
        = env.timeSeq cur.tc + ms)
    ∧ (∀ (t fuel idx : Nat) (st2 : SchedState) (cur2 : Cursors) (i : Nat)
        (st3 : SchedState) (cur3 : Cursors),
        idx < st2.num_tasks →
        (st2.tasks i).status = blocked_on_sleep →
        (st2.tasks i).wake_time = env.timeSeq cur.tc + ms →
        scheduleLoop env t st2 fuel idx cur2 = some (i, st3, cur3) →
        ∃ k, cur2.tc ≤ k ∧ env.timeSeq cur.tc + ms ≤ env.timeSeq k)
    ∧ (∀ (acts : Nat → SchedState → SchedState) (i : Nat) (st2 : SchedState) (cur2 : Cursors),
        (∀ k s, (acts k s).num_tasks = s.num_tasks ∧
          (acts k s).current_task = s.current_task ∧ (acts k s).tasks i = s.tasks i) →
        (∀ k, env.timeSeq cur.tc + ms ≤ env.timeSeq k) →
        i < st2.num_tasks → st2.current_task < st2.num_tasks →
        (st2.tasks i).status = blocked_on_sleep →
        (st2.tasks i).wake_time = env.timeSeq cur.tc + ms →
        eventuallySelects env acts i st2.num_tasks st2 cur2) := by
  refine ⟨⟨?_, ?_⟩, ?_, ?_⟩
  · simp [task_sleep_rec, setCurrent]
  · simp [task_sleep_rec, setCurrent]
  · intro t fuel idx st2 cur2 i st3 cur3 hidx hstat hwake hs
    obtain ⟨_, _, _, _, _, hf⟩ := scheduleLoop_spec env t st2 fuel idx cur2 i st3 cur3 hidx hs
    rcases hf with hx | ⟨_, k, hk1, hk2⟩ | ⟨hx, _⟩ | ⟨hx, _⟩
    · rw [hstat] at hx; exact absurd hx (by decide)
    · rw [hwake] at hk2; exact ⟨k, hk1, hk2⟩
    · rw [hstat] at hx; exact absurd hx (by decide)
    · rw [hstat] at hx; exact absurd hx (by decide)
  · intro acts i st2 cur2 hacts htime hi hc h3 h4
    have hn : 0 < st2.num_tasks := by omega
    exact selects_within env acts i (env.timeSeq cur.tc + ms) hacts htime
      st2.num_tasks st2 cur2 hi hc h3 h4
      (ringDist_lt _ _ _ (Nat.mod_lt _ hn) hi)

/-- Witness for C8, at the concrete table with slot 0 running and slot 1
sleeping until 10 under the clock stopped at 10 (duration 0): the
recorded deadline, the clock evidence at the selecting step, and the
sleeper selected within two yields. -/
theorem task_sleep_contract_witness :
    ((task_sleep_rec (envW8.timeSeq 0) 0 stW8).tasks 0).wake_time = envW8.timeSeq 0 + 0
    ∧ (∃ k, (0 : Nat) ≤ k ∧ envW8.timeSeq 0 + 0 ≤ envW8.timeSeq k)
    ∧ eventuallySelects envW8 (fun _ s => s) 1 2 stW8 ⟨0, 0⟩ := by
  obtain ⟨⟨hr1, hr2⟩, hsafe, hlive⟩ := task_sleep_contract envW8 0 stW8 ⟨0, 0⟩
  refine ⟨hr2, ?_, ?_⟩
  · exact hsafe 0 2 1 stW8 ⟨0, 0⟩ 1 (select stW8 1) ⟨1, 0⟩ (by decide) rfl rfl rfl
  · exact hlive (fun _ s => s) 1 stW8 ⟨0, 0⟩ (fun k s => ⟨rfl, rfl, rfl⟩)
      (fun k => by simp [envW8]) (by decide) (by decide) rfl rfl

/-- Claim C9.  A running task t that calls task_wait(t) records itself
as its own join target; its schedule(t) call then terminates within one
full ring scan (fuel num_tasks suffices, because slot t itself
satisfies the join condition, the yielder t equalling the recorded
target, when the scan reaches it); and when no other slot is eligible
the scan selects t itself, so schedule takes the equal-index path and
task_wait returns to the caller without a context switch instead of
blocking forever. -/
theorem self_join_returns (env : Env) (st : SchedState) (cur : Cursors) (t : Nat)
    (hcur : st.current_task = t) (ht : t < st.num_tasks) :
    ((task_wait_rec t st).tasks t).status = blocked_on_join
    ∧ ((task_wait_rec t st).tasks t).join_thread = t
    ∧ (∃ r, scheduleLoop env t (task_wait_rec t st) st.num_tasks
        ((t + 1) % st.num_tasks) cur = some r)
    ∧ ((∀ j, j < st.num_tasks → j ≠ t → notEligibleAny env t (task_wait_rec t st) j) →
        ∃ st2 cur2,
          scheduleLoop env t (task_wait_rec t st) st.num_tasks
              ((t + 1) % st.num_tasks) cur = some (t, st2, cur2)
          ∧ task_wait env st.num_tasks t st cur = some (st2, cur2, false)) := by
  have hn : 0 < st.num_tasks := by omega
  have hrec : (task_wait_rec t st).tasks t
      = { st.tasks t with status := blocked_on_join, join_thread := t } := by
    simp [task_wait_rec, setCurrent, hcur]
  refine ⟨by rw [hrec], by rw [hrec], ?_, ?_⟩
  · have helig : alwaysEligible env t (task_wait_rec t st) t :=
      Or.inr (Or.inr (Or.inl ⟨by rw [hrec], by rw [hrec]⟩))
    obtain ⟨sel, st2, cur2, hs, _, _⟩ :=
      scan_reaches env t (task_wait_rec t st) t ht helig
        st.num_tasks ((t + 1) % (task_wait_rec t st).num_tasks) cur
        (Nat.mod_lt _ hn)
        (ringDist_lt _ _ _ (Nat.mod_lt _ hn) ht)
    exact ⟨(sel, st2, cur2), hs⟩
  · intro hothers
    obtain ⟨st2, cur2, heq⟩ :=
      scan_finds_target env t (task_wait_rec t st) ht (by rw [hrec]) (by rw [hrec])
        hothers st.num_tasks ((t + 1) % (task_wait_rec t st).num_tasks) cur
        (Nat.mod_lt _ hn)
        (ringDist_lt _ _ _ (Nat.mod_lt _ hn) ht)
    obtain ⟨_, hcur2, _, _, _, _⟩ :=
      scheduleLoop_spec env t (task_wait_rec t st) st.num_tasks _ cur t st2 cur2
        (Nat.mod_lt _ hn) heq
    refine ⟨st2, cur2, heq, ?_⟩
    have hw : schedule env st.num_tasks t (task_wait_rec t st) cur
        = some (st2, cur2, false) := by
      unfold schedule
      rw [heq]
      simp [hcur2]
    unfold task_wait
    rw [hcur]
    exact hw

/-- Witness for C9: the main task of the one-task table joins itself;
the scan of its own yield selects slot 0 at once and task_wait returns
with the switch flag false. -/
theorem self_join_returns_witness :
    ((task_wait_rec 0 startState).tasks 0).status = blocked_on_join
    ∧ ∃ st2 cur2,
        scheduleLoop envA 0 (task_wait_rec 0 startState) startState.num_tasks
            ((0 + 1) % startState.num_tasks) ⟨0, 0⟩ = some (0, st2, cur2)
        ∧ task_wait envA startState.num_tasks 0 startState ⟨0, 0⟩
            = some (st2, cur2, false) := by
  obtain ⟨h1, h2, h3, h4⟩ := self_join_returns envA startState ⟨0, 0⟩ 0 rfl (by decide)
  refine ⟨h1, h4 ?_⟩
  intro j hj hne
  have hj1 : j < 1 := hj
  omega

/-- Claim C10.  From any invariant state in which task B has exited and
task A is join-blocked on B, no completed continuation of public
operations ever selects A again: the record of A stays blocked_on_join with
target B, A never becomes the current task, and B stays exited — B can
never be the yielder again, so the join condition can never hold and A
is blocked forever. -/
theorem wait_on_exited_blocks_forever (env : Env) (fuel : Nat) (ops : List Op)
    (st : SchedState) (cur : Cursors) (st2 : SchedState) (cur2 : Cursors) (A B : Nat)
    (hInv : Inv st) (hAn : A < st.num_tasks) (hBn : B < st.num_tasks)
    (hA : (st.tasks A).status = blocked_on_join)
    (hAj : (st.tasks A).join_thread = B)
    (hB : (st.tasks B).status = exited)
    (h : runOps env fuel ops st cur = some (st2, cur2)) :
    (st2.tasks A).status = blocked_on_join ∧ (st2.tasks A).join_thread = B ∧
      st2.current_task ≠ A ∧ (st2.tasks B).status = exited := by
  obtain ⟨hInv2, heqA, heqB⟩ :=
    c10_runOps env fuel ops st cur st2 cur2 A B hInv hAn hBn hA hAj hB h
  refine ⟨by rw [heqA]; exact hA, by rw [heqA]; exact hAj, ?_, by rw [heqB]; exact hB⟩
  intro hcon
  have hr := hInv2.1.1
  rw [hcon, heqA, hA] at hr
  exact absurd hr (by decide)

/-- Witness for C10: slot 1 is join-blocked on the exited slot 2; after
the completed continuation in which the running task 0 sleeps and is
re-selected, slot 1 is still blocked on 2, is not current, and slot 2
is still exited. -/
theorem wait_on_exited_blocks_forever_witness :
    (wst10.tasks 1).status = blocked_on_join
    ∧ (wst10.tasks 1).join_thread = 2
    ∧ wst10.current_task ≠ 1
    ∧ (wst10.tasks 2).status = exited := by
  have hInv : Inv stW10 := by
    refine ⟨⟨rfl, ?_⟩, by decide⟩
    intro j hj
    have hj0 : ¬ j = 0 := hj
    have htj : stW10.tasks j
        = if j = 0 then { status := is_running }
          else if j = 1 then { status := blocked_on_join, join_thread := 2 }
          else if j = 2 then { status := exited } else ({} : task_info) := rfl
    rw [htj, if_neg hj0]
    split_ifs with e1 e2 <;> decide
  exact wait_on_exited_blocks_forever envA 8 [Op.sleep 0] stW10 ⟨0, 0⟩ wst10 wcur10 1 2
    hInv (by decide) (by decide) rfl rfl rfl rfl

end Worm
